import Mathlib

/-!
Shallow embedding of the anomaly-detection-in-eps repository
(src/lstm_trainer.py and src/combine_data.py).

Conventions of the embedding:
* real-valued tensors are modelled over `ℚ`; a 1-D tensor is `Vec := List ℚ`
  and a 2-D tensor is `Mat := List Vec`;
* the nonlinear activations of the LSTM cells (sigmoid, tanh), the parameter
  update performed by the Adam optimizer, `np.sqrt` (inside `np.std`) and
  Python's `float` literal parser are kept as explicit function parameters:
  they are external numeric routines whose exact values no claim depends on;
* Python exceptions are modelled with `Except String`;
* the filesystem touched by `torch.save` / `np.savez` / `torch.load` /
  `np.load` is an association list from paths to file contents; a path is a
  directory/filename pair, mirroring the f-strings of the source;
* the repository always builds its LSTMs with `num_layers = 1` (the default
  of every constructor and the value used in `__main__`), so the embedding
  models single-layer `nn.LSTM` modules.
-/

namespace EPS

/-- Vectors: 1-D tensors of rationals. -/
abbrev Vec := List ℚ

/-- Matrices / sequences: 2-D tensors, a list of rows. -/
abbrev Mat := List Vec

/-- Arithmetic mean of a list, `np.mean` (the empty list is sent to `0`;
numpy would produce NaN there, a case no claim exercises). -/
def listMean (xs : List ℚ) : ℚ := xs.sum / (xs.length : ℚ)

/-- Population variance, the square of `np.std` with its default `ddof=0`. -/
def listVar (xs : List ℚ) : ℚ := listMean (xs.map (fun x => (x - listMean xs) ^ 2))

/-- Dot product of two vectors. -/
def dot (a b : Vec) : ℚ := (List.zipWith (fun x y => x * y) a b).sum

/-- Matrix-vector product. -/
def matVec (M : Mat) (v : Vec) : Vec := M.map (fun r => dot r v)

/-- Elementwise sum of two vectors. -/
def vadd (a b : Vec) : Vec := List.zipWith (fun x y => x + y) a b

/-- Elementwise (Hadamard) product of two vectors. -/
def vmul (a b : Vec) : Vec := List.zipWith (fun x y => x * y) a b

/-- Reshape a flat list into `r` rows of `k` entries: the semantics of
`Tensor.reshape` on the element count the source always supplies. -/
def chunkN : Nat → Nat → List ℚ → Mat
  | 0, _, _ => []
  | r + 1, k, l => l.take k :: chunkN r k (l.drop k)

/-- Parameters of one `nn.LSTM(input_size, hidden_size, num_layers=1,
batch_first=True)` module: the four gates are stacked in the `4*hidden`
rows of `wih`/`whh` exactly as in PyTorch (input, forget, cell, output),
and `sigm`/`tanh` are its two activations, kept abstract. -/
structure LSTMParams where
  hidden : Nat
  wih : Mat
  whh : Mat
  bih : Vec
  bhh : Vec
  sigm : ℚ → ℚ
  tanh : ℚ → ℚ

/-- Shape discipline PyTorch guarantees for a freshly constructed LSTM:
the stacked gate matrices and biases have `4*hidden` rows. -/
abbrev LSTMParams.wf (p : LSTMParams) : Prop :=
  p.wih.length = 4 * p.hidden ∧ p.whh.length = 4 * p.hidden ∧
  p.bih.length = 4 * p.hidden ∧ p.bhh.length = 4 * p.hidden

/-- One LSTM cell step on input `x` with carried hidden/cell state `hc`. -/
def lstmCell (p : LSTMParams) (hc : Vec × Vec) (x : Vec) : Vec × Vec :=
  let z := vadd (vadd (matVec p.wih x) (matVec p.whh hc.1)) (vadd p.bih p.bhh)
  let i := (z.take p.hidden).map p.sigm
  let f := ((z.drop p.hidden).take p.hidden).map p.sigm
  let g := ((z.drop (2 * p.hidden)).take p.hidden).map p.tanh
  let o := ((z.drop (3 * p.hidden)).take p.hidden).map p.sigm
  let c2 := vadd (vmul f hc.2) (vmul i g)
  let h2 := vmul o (c2.map p.tanh)
  (h2, c2)

/-- Run an LSTM over a sequence, collecting the per-step hidden states and
returning the final carried state. -/
def lstmRun (p : LSTMParams) : Vec × Vec → List Vec → Mat × (Vec × Vec)
  | hc, [] => ([], hc)
  | hc, x :: xs =>
    let hc2 := lstmCell p hc x
    let r := lstmRun p hc2 xs
    (hc2.1 :: r.1, r.2)

/-- A batch-first LSTM applied to one (batch = 1) sequence: zero initial
state, returns the per-step outputs and the final hidden state `h_n`. -/
def lstmLayer (p : LSTMParams) (xs : Mat) : Mat × Vec :=
  let z0 : Vec := List.replicate p.hidden 0
  let r := lstmRun p (z0, z0) xs
  (r.1, r.2.1)

/-- The `Encoder` module of lstm_trainer.py: two stacked LSTMs, widths
`2*embedding_dim` then `embedding_dim`. -/
structure Encoder where
  seq_len : Nat
  n_features : Nat
  embedding_dim : Nat
  hidden_dim : Nat
  lstm1 : LSTMParams
  lstm2 : LSTMParams

/-- Shapes `Encoder.__init__` establishes. -/
abbrev Encoder.wf (e : Encoder) : Prop :=
  e.hidden_dim = 2 * e.embedding_dim ∧
  e.lstm1.hidden = e.hidden_dim ∧ e.lstm1.wf ∧
  e.lstm2.hidden = e.embedding_dim ∧ e.lstm2.wf

/-- Encoder.forward: reshape to `(1, seq_len, n_features)`, run the two
LSTMs, return `hidden_states[0].reshape((-1, embedding_dim))`, which for
one layer and batch 1 is the final hidden state of the second LSTM. -/
def Encoder.forward (e : Encoder) (x : Mat) : Vec :=
  let x0 := chunkN e.seq_len e.n_features x.flatten
  let r1 := lstmLayer e.lstm1 x0
  let r2 := lstmLayer e.lstm2 r1.1
  r2.2

/-- The `Decoder` module: two stacked LSTMs (widths `input_dim` then
`2*input_dim`) followed by a per-timestep `nn.Linear(2*input_dim, output_dim)`
with weight `linW` and bias `linB`. -/
structure Decoder where
  seq_len : Nat
  input_dim : Nat
  hidden_dim : Nat
  output_dim : Nat
  lstm1 : LSTMParams
  lstm2 : LSTMParams
  linW : Mat
  linB : Vec

/-- Shapes `Decoder.__init__` establishes. -/
abbrev Decoder.wf (d : Decoder) : Prop :=
  d.hidden_dim = 2 * d.input_dim ∧
  d.lstm1.hidden = d.input_dim ∧ d.lstm1.wf ∧
  d.lstm2.hidden = d.hidden_dim ∧ d.lstm2.wf ∧
  d.linW.length = d.output_dim ∧ d.linB.length = d.output_dim

/-- Decoder.forward: `x.repeat((seq_len, 1))`, reshape to
`(1, seq_len, input_dim)`, two LSTMs, reshape to `(seq_len, hidden_dim)`,
then the linear projection applied to every timestep. -/
def Decoder.forward (d : Decoder) (x : Vec) : Mat :=
  let xr := (List.replicate d.seq_len x).flatten
  let x0 := chunkN d.seq_len d.input_dim xr
  let r1 := lstmLayer d.lstm1 x0
  let r2 := lstmLayer d.lstm2 r1.1
  let x3 := chunkN d.seq_len d.hidden_dim r2.1.flatten
  x3.map (fun v => vadd (matVec d.linW v) d.linB)

/-- The `LAE` LSTM autoencoder: encoder into decoder, the decoder built
with `input_dim = embedding_dim` and `output_dim = n_features`. -/
structure LAE where
  seq_len : Nat
  n_features : Nat
  embedding_dim : Nat
  encoder : Encoder
  decoder : Decoder

/-- Wiring `LAE.__init__` establishes between the dimensions of the model
and those of its two submodules. -/
abbrev LAE.wf (m : LAE) : Prop :=
  m.encoder.seq_len = m.seq_len ∧ m.encoder.n_features = m.n_features ∧
  m.encoder.embedding_dim = m.embedding_dim ∧ m.encoder.wf ∧
  m.decoder.seq_len = m.seq_len ∧ m.decoder.input_dim = m.embedding_dim ∧
  m.decoder.output_dim = m.n_features ∧ m.decoder.wf

/-- LAE.forward = decoder(encoder(x)). -/
def LAE.forward (m : LAE) (x : Mat) : Mat :=
  m.decoder.forward (m.encoder.forward x)

/-- Architecture agreement checked (via parameter-shape matching) by
`load_state_dict(..., strict=True)`. -/
abbrev LAE.archMatch (a b : LAE) : Prop :=
  a.seq_len = b.seq_len ∧ a.n_features = b.n_features ∧
  a.embedding_dim = b.embedding_dim

/-- Mean absolute error between equishaped tensors:
`nn.L1Loss(reduction="mean")`. -/
def l1Loss (pred target : Mat) : ℚ :=
  listMean (List.zipWith (fun a b => |a - b|) pred.flatten target.flatten)

/-- A filesystem path, mirroring the `f"{dir}/{file}"` strings of the
source. -/
structure FPath where
  dir : String
  file : String
deriving DecidableEq

/-- Contents of the files the trainer reads and writes: a model checkpoint
(`torch.save(model.state_dict(), ...)`) or a losses archive
(`np.savez(..., train_loss=..., val_loss=...)`). -/
inductive FileData where
  | ckpt (model : LAE)
  | npz (train_loss val_loss : List ℚ)

/-- The filesystem: later writes shadow earlier ones. -/
abbrev FS := List (FPath × FileData)

/-- Write a file. -/
def fsWrite (fs : FS) (p : FPath) (d : FileData) : FS := (p, d) :: fs

/-- Read a file. -/
def fsRead : FS → FPath → Option FileData
  | [], _ => none
  | (q, d) :: rest, p => if p = q then some d else fsRead rest p

/-- The `Trainer` state: its construction arguments and the two lists of
`self.history` (keys "train loss" and "val loss"), which `__init__` creates
empty. The device choice and the fixed `L1Loss` criterion carry no state. -/
structure Trainer where
  log_dir : String
  model_name : String
  train_hist : List ℚ
  val_hist : List ℚ

/-- Trainer.__init__(log_dir, model_name). -/
def Trainer.make (log_dir model_name : String) : Trainer :=
  ⟨log_dir, model_name, [], []⟩

/-- One training iteration of the inner loop of `fit`, abstracted: given the
learning rate, the current model and one sequence it either returns the
updated model (after `loss.backward(); optimizer.step()`) together with the
recorded scalar `loss.item()`, or raises. The instantiation used by the
source records `l1Loss (m.forward s) s` and updates by Adam; the update rule
itself is an external numeric routine. -/
abbrev TrainStep := ℚ → LAE → Mat → Except String (LAE × ℚ)

/-- One validation iteration (no gradient, no update): the recorded loss, or
a raised error. -/
abbrev ValStep := LAE → Mat → Except String ℚ

/-- The training step the source actually performs, given an abstract
optimizer update `optStep` (Adam's parameter mutation): the recorded loss is
the `L1` loss of the current model on the sequence, computed before the
update. -/
def realTrainStep (optStep : ℚ → LAE → Mat → LAE) : TrainStep :=
  fun lr m s => .ok (optStep lr m s, l1Loss (m.forward s) s)

/-- The validation step the source performs. -/
def realValStep : ValStep :=
  fun m s => .ok (l1Loss (m.forward s) s)

/-- The per-sequence training loop of one epoch: sequences are processed one
at a time, in order; the scalar losses are collected in order; a raised
error propagates. -/
def epochTrain (ts : TrainStep) (lr : ℚ) : LAE → List Mat → Except String (LAE × List ℚ)
  | m, [] => .ok (m, [])
  | m, s :: rest =>
    match ts lr m s with
    | .error e => .error e
    | .ok r =>
      match epochTrain ts lr r.1 rest with
      | .error e => .error e
      | .ok r2 => .ok (r2.1, r.2 :: r2.2)

/-- The validation loop of one epoch (model fixed). -/
def epochVal (vs : ValStep) (m : LAE) : List Mat → Except String (List ℚ)
  | [] => .ok []
  | s :: rest =>
    match vs m s with
    | .error e => .error e
    | .ok l =>
      match epochVal vs m rest with
      | .error e => .error e
      | .ok ls => .ok (l :: ls)

/-- The epoch loop of `fit`: per epoch, run the training loop, then the
validation loop on the updated model, then append `np.mean` of each loss
list to the respective history. -/
def fitEpochs (ts : TrainStep) (vs : ValStep) (lr : ℚ) :
    Nat → LAE → List Mat → List Mat → List ℚ → List ℚ →
    Except String (LAE × List ℚ × List ℚ)
  | 0, m, _, _, htr, hvl => .ok (m, htr, hvl)
  | n + 1, m, train_dataset, val_dataset, htr, hvl =>
    match epochTrain ts lr m train_dataset with
    | .error e => .error e
    | .ok r =>
      match epochVal vs r.1 val_dataset with
      | .error e => .error e
      | .ok vls =>
        fitEpochs ts vs lr n r.1 train_dataset val_dataset
          (htr ++ [listMean r.2]) (hvl ++ [listMean vls])

/-- Reference log of the epoch loop: the final model together with, for
each epoch in order, the pair (per-sequence training losses, per-sequence
validation losses) of that epoch. -/
def epochLog (ts : TrainStep) (vs : ValStep) (lr : ℚ) :
    Nat → LAE → List Mat → List Mat →
    Except String (LAE × List (List ℚ × List ℚ))
  | 0, m, _, _ => .ok (m, [])
  | n + 1, m, train_dataset, val_dataset =>
    match epochTrain ts lr m train_dataset with
    | .error e => .error e
    | .ok r =>
      match epochVal vs r.1 val_dataset with
      | .error e => .error e
      | .ok vls =>
        match epochLog ts vs lr n r.1 train_dataset val_dataset with
        | .error e => .error e
        | .ok rest => .ok (rest.1, (r.2, vls) :: rest.2)

/-- Trainer.fit: run the epoch loop on the histories carried by the trainer;
only after every epoch has completed, write the checkpoint to
`f"{log_dir}/{model_name}.pth"` and then the losses archive to
`f"{log_dir}/losses"` (`.npz`). An unhandled failure inside an epoch
propagates (`.error`) and the filesystem is returned untouched. -/
def Trainer.fit (ts : TrainStep) (vs : ValStep) (t : Trainer) (fs : FS)
    (m : LAE) (train_dataset val_dataset : List Mat) (num_epochs : Nat)
    (lr : ℚ) : FS × Except String (Trainer × LAE) :=
  match fitEpochs ts vs lr num_epochs m train_dataset val_dataset
      t.train_hist t.val_hist with
  | .error e => (fs, .error e)
  | .ok (m2, htr, hvl) =>
    let fs2 := fsWrite fs ⟨t.log_dir, t.model_name ++ ".pth"⟩ (.ckpt m2)
    let fs3 := fsWrite fs2 ⟨t.log_dir, "losses.npz"⟩ (.npz htr hvl)
    (fs3, .ok (⟨t.log_dir, t.model_name, htr, hvl⟩, m2))

/-- The prediction loop of `Trainer.predict` after the checkpoint load: per
sequence, the model output flattened into `predictions` and the scalar `L1`
loss into `losses`; both are finally reshaped to a single column
(`reshape(-1, 1)`), modelled as lists of singleton rows. -/
def predictCore (m : LAE) (dataset : List Mat) : Mat × Mat :=
  let preds := (dataset.map (fun s => (m.forward s).flatten)).flatten
  let losses := dataset.map (fun s => l1Loss (m.forward s) s)
  (preds.map (fun a => [a]), losses.map (fun a => [a]))

/-- Trainer.predict: `load_state_dict(torch.load(model_path), strict=True)`
(fatal if the file is absent or its parameters do not match the model's
architecture), then the no-grad prediction loop on the loaded parameters. -/
def Trainer.predict (_t : Trainer) (fs : FS) (m : LAE) (model_path : FPath)
    (dataset : List Mat) : Except String (Mat × Mat) :=
  match fsRead fs model_path with
  | some (.ckpt m2) =>
    if m.archMatch m2 then .ok (predictCore m2 dataset)
    else .error ("state dict mismatch")
  | _ => .error ("missing checkpoint")

/-- The fixed path `"training_logs/losses.npz"` hard-coded in
`plot_prediction`'s `np.load` call. -/
def lossesArchivePath : FPath := ⟨"training_logs", "losses.npz"⟩

/-- The numeric outcome of the scoring step of `plot_prediction`: the
derived threshold, the per-sample anomaly flags (`l >= threshold`, the flag
of both the line-232 list and the `Anomaly` CSV column), and `correct`, the
count of samples with `l <= threshold` used for the reported accuracy. -/
structure ScoreResult where
  threshold : ℚ
  anomaly : List Bool
  correct : Nat

/-- The scoring logic of Trainer.plot_prediction: run `predict`, load the
(previously persisted) losses archive from the hard-coded path
`"training_logs/losses.npz"`, set
`threshold = np.mean(train_loss) + np.std(train_loss)` (with `np.std xs`
modelled as `sqrtFn (listVar xs)` for the abstract square root `sqrtFn`),
and label each scored sample by comparing its scaled reconstruction loss
with the threshold. The plotting, the inverse scaling of the reported
values and the diagnostic MAE/R2 metrics consume these numbers without
feeding back into them and are not modelled. -/
def Trainer.plot_prediction (sqrtFn : ℚ → ℚ) (t : Trainer) (fs : FS)
    (dataset : List Mat) (m : LAE) (model_path : FPath) :
    Except String ScoreResult :=
  match t.predict fs m model_path dataset with
  | .error e => .error e
  | .ok pr =>
    match fsRead fs lossesArchivePath with
    | some (.npz tr _) =>
      let threshold := listMean tr + sqrtFn (listVar tr)
      let ls := pr.2.flatten
      .ok ⟨threshold, ls.map (fun l => decide (threshold ≤ l)),
        (ls.filter (fun l => decide (l ≤ threshold))).length⟩
    | _ => .error ("missing losses archive")

/-- Splitting a character list at every occurrence of a separator: the
semantics of Python's `str.split(sep)` for the one-character separators
(`"_"`, `"."`, `","`, `":"`) used by the repository. Like Python's, the
result is never empty and keeps empty fragments. -/
def charSplit (sep : Char) : List Char → List (List Char)
  | [] => [[]]
  | c :: rest =>
    if c = sep then [] :: charSplit sep rest
    else
      match charSplit sep rest with
      | [] => [[c]]
      | g :: gs => (c :: g) :: gs

/-- Value of a decimal digit. -/
def digitVal (c : Char) : Option Nat :=
  if '0' ≤ c ∧ c ≤ '9' then some (c.toNat - ('0').toNat) else none

/-- Parse a nonempty all-digit character list as a natural number. -/
def parseNat : List Char → Option Nat
  | [] => none
  | cs => cs.foldl (fun acc c => do
      let a ← acc
      let d ← digitVal c
      some (a * 10 + d)) (some 0)

/-- Parse an optionally signed decimal numeral: the behavior of Python's
`int(...)` on the plain numeric filename suffixes the utility sorts by. -/
def parseInt : List Char → Option Int
  | '-' :: rest => (parseNat rest).map (fun n => -(n : Int))
  | '+' :: rest => (parseNat rest).map (fun n => (n : Int))
  | cs => (parseNat cs).map (fun n => (n : Int))

/-- A raw sensor log file: its name within the source directory and its
lines (`readlines` keeps any line terminator inside each line; the parser
below is abstract in the numeral format, so that is immaterial). -/
structure RawFile where
  name : String
  lines : List String

/-- os.path.join for the one-level joins the utility performs. -/
def pathJoin (d f : String) : String := d ++ "/" ++ f

/-- The sort key of combine_data:
`int(x.split("_")[-1].split(".")[-2])` on the joined path `x`. `none` models
the `IndexError`/`ValueError` Python raises on a malformed name. -/
def suffixKey (path : String) : Option Int :=
  let grp := (charSplit '_' path.data).getLastD []
  let parts := charSplit '.' grp
  if parts.length < 2 then none
  else parseInt (parts.getD (parts.length - 2) [])

/-- One `label:value` field: split on `":"`, keep the last fragment, parse
it with the abstract float parser `pF`. -/
def parseField (pF : List Char → Option ℚ) (field : List Char) : Option ℚ :=
  pF ((charSplit ':' field).getLastD [])

/-- One line of a raw file: exactly three comma-separated fields
(`speed, angle, torque = line.split(",")` raises otherwise), each reduced
to the number after its last `':'`. -/
def parseLine (pF : List Char → Option ℚ) (line : String) :
    Option (ℚ × ℚ × ℚ) :=
  match (charSplit ',' line.data).map (parseField pF) with
  | [some spd, some ang, some trq] => some (spd, ang, trq)
  | _ => none

/-- Ordering used on the keyed files: nondecreasing numeric suffix. -/
def keyLe (a b : Int × RawFile) : Prop := a.1 ≤ b.1

instance : DecidableRel keyLe := fun a b => inferInstanceAs (Decidable (a.1 ≤ b.1))

instance : IsTotal (Int × RawFile) keyLe := ⟨fun a b => Int.le_total a.1 b.1⟩

instance : IsTrans (Int × RawFile) keyLe := ⟨fun _ _ _ h1 h2 => le_trans h1 h2⟩

/-- combine_data(source_dir, files): keep the names ending in "txt", sort
them by the numeric suffix of the joined path (Python's `sorted` is the
stable sort by that key, i.e. insertion sort by `≤` on keys), then emit one
(SPD, ANG, TRQ) row per line, files in sorted order, lines in file order.
The result is the row list of the written CSV; `none` models an uncaught
parse failure. -/
def combine_data (pF : List Char → Option ℚ) (source_dir : String)
    (files : List RawFile) : Option (List (ℚ × ℚ × ℚ)) :=
  let txt := files.filter (fun f => ("txt").data.isSuffixOf f.name.data)
  match txt.mapM (fun f =>
      (suffixKey (pathJoin source_dir f.name)).map (fun k => (k, f))) with
  | none => none
  | some keyed =>
    let sorted := List.insertionSort keyLe keyed
    ((sorted.map (fun kf => kf.2.lines)).flatten).mapM (parseLine pF)

/-! Concrete fixtures: a minimal model, trainer, filesystem and step
functions, used to instantiate the theorems below at evaluable inputs. -/

/-- An LSTM of hidden width `h` with zero parameters and identity
activations. -/
def tinyLSTM (h : Nat) : LSTMParams :=
  ⟨h, List.replicate (4 * h) [], List.replicate (4 * h) [],
    List.replicate (4 * h) 0, List.replicate (4 * h) 0,
    fun x => x, fun x => x⟩

/-- Encoder(seq_len := 1, n_features := 1, embedding_dim := 1). -/
def tinyEnc : Encoder := ⟨1, 1, 1, 2, tinyLSTM 2, tinyLSTM 1⟩

/-- Decoder(seq_len := 1, input_dim := 1, output_dim := 1). -/
def tinyDec : Decoder := ⟨1, 1, 2, 1, tinyLSTM 1, tinyLSTM 2, [[0, 0]], [0]⟩

/-- LAE(seq_len := 1, n_features := 1, embedding_dim := 1). -/
def tinyLAE : LAE := ⟨1, 1, 1, tinyEnc, tinyDec⟩

/-- Encoder(seq_len := 2, n_features := 1, embedding_dim := 1). -/
def tinyEnc2 : Encoder := ⟨2, 1, 1, 2, tinyLSTM 2, tinyLSTM 1⟩

/-- Decoder(seq_len := 2, input_dim := 1, output_dim := 1). -/
def tinyDec2 : Decoder := ⟨2, 1, 2, 1, tinyLSTM 1, tinyLSTM 2, [[0, 0]], [0]⟩

/-- LAE(seq_len := 2, n_features := 1, embedding_dim := 1). -/
def tinyLAE2 : LAE := ⟨2, 1, 1, tinyEnc2, tinyDec2⟩

/-- Checkpoint path used by the fixtures. -/
def tinyCkptPath : FPath := ⟨"training_logs", "steering.pth"⟩

/-- A filesystem holding a checkpoint of `tinyLAE` and a losses archive. -/
def tinyFS : FS :=
  [(tinyCkptPath, .ckpt tinyLAE), (lossesArchivePath, .npz [1, 2] [3])]

/-- A filesystem holding a checkpoint of the two-step model `tinyLAE2`. -/
def tinyFS2 : FS :=
  [(tinyCkptPath, .ckpt tinyLAE2), (lossesArchivePath, .npz [1, 2] [3])]

/-- A training step that performs no parameter update and records loss 0. -/
def tinyTS : TrainStep := fun _ m _ => .ok (m, 0)

/-- A validation step that records loss 0. -/
def tinyVS : ValStep := fun _ _ => .ok 0

/-- A training step whose first iteration raises, modelling an unhandled
failure (for instance a non-finite loss) inside an epoch. -/
def failTS : TrainStep := fun _ _ _ => .error ("boom")

/-- A sequence of shape (1, 1). -/
def tinyX : Mat := [[5]]

/-- A dataset of one sequence of shape (1, 1). -/
def tinyDS : List Mat := [[[5]]]

/-- A dataset of one sequence of shape (2, 1). -/
def tinyDS2 : List Mat := [[[5], [7]]]

/-- Trainer("training_logs", "steering"), as in `__main__`. -/
def tinyTrainer : Trainer := Trainer.make ("training_logs") ("steering")

/-- A trainer whose log_dir is not "training_logs". -/
def logTrainer : Trainer := Trainer.make ("logs") ("m")

/-! Helper lemmas. -/

theorem vadd_length (a b : Vec) : (vadd a b).length = min a.length b.length := by
  simp [vadd]

theorem matVec_length (M : Mat) (v : Vec) : (matVec M v).length = M.length := by
  simp [matVec]

theorem chunkN_length (r k : Nat) (l : List ℚ) : (chunkN r k l).length = r := by
  induction r generalizing l with
  | zero => simp [chunkN]
  | succ n ih => simp [chunkN, ih]

theorem flatten_length_const {α : Type} (L : List (List α)) (k : Nat)
    (h : ∀ r ∈ L, r.length = k) : L.flatten.length = L.length * k := by
  induction L with
  | nil => simp
  | cons a L ih =>
    have ha : a.length = k := h a (List.mem_cons_self a L)
    have hL : ∀ r ∈ L, r.length = k := fun r hr => h r (List.mem_cons_of_mem a hr)
    simp [ha, ih hL, Nat.succ_mul, Nat.add_comm]

theorem flatten_singletons {α : Type} (l : List α) :
    (l.map (fun a => [a])).flatten = l := by
  induction l with
  | nil => rfl
  | cons a l ih => simp [ih]

theorem decoder_forward_length (d : Decoder) (x : Vec) :
    (d.forward x).length = d.seq_len := by
  simp [Decoder.forward, chunkN_length]

theorem decoder_forward_rows (d : Decoder) (hW : d.linW.length = d.output_dim)
    (hB : d.linB.length = d.output_dim) (x : Vec) :
    ∀ r ∈ d.forward x, r.length = d.output_dim := by
  intro r hr
  simp only [Decoder.forward, List.mem_map] at hr
  obtain ⟨v, _, rfl⟩ := hr
  simp [vadd_length, matVec_length, hW, hB]

theorem lae_forward_length (m : LAE) (hm : m.wf) (x : Mat) :
    (m.forward x).length = m.seq_len := by
  obtain ⟨-, -, -, -, hd, -, -, -⟩ := hm
  rw [LAE.forward, decoder_forward_length, hd]

theorem lae_forward_rows (m : LAE) (hm : m.wf) (x : Mat) :
    ∀ r ∈ m.forward x, r.length = m.n_features := by
  obtain ⟨-, -, -, -, -, -, ho, -, -, -, -, -, hW, hB⟩ := hm
  intro r hr
  rw [LAE.forward] at hr
  have := decoder_forward_rows m.decoder hW hB (m.encoder.forward x) r hr
  rw [this, ho]

theorem lae_forward_flatten_length (m : LAE) (hm : m.wf) (x : Mat) :
    (m.forward x).flatten.length = m.seq_len * m.n_features := by
  rw [flatten_length_const (m.forward x) m.n_features (lae_forward_rows m hm x),
    lae_forward_length m hm x]

theorem predict_ok (t : Trainer) (fs : FS) (m : LAE) (mp : FPath)
    (dataset : List Mat) (m2 : LAE) (hck : fsRead fs mp = some (.ckpt m2))
    (harch : m.archMatch m2) :
    Trainer.predict t fs m mp dataset = .ok (predictCore m2 dataset) := by
  unfold Trainer.predict
  rw [hck]
  simp [harch]

theorem predictCore_preds (m : LAE) (hm : m.wf) (dataset : List Mat) :
    (predictCore m dataset).1.length
      = dataset.length * (m.seq_len * m.n_features) ∧
    ∀ r ∈ (predictCore m dataset).1, r.length = 1 := by
  constructor
  · show ((dataset.map (fun s => (m.forward s).flatten)).flatten.map
      (fun a => [a])).length = dataset.length * (m.seq_len * m.n_features)
    have hrows : ∀ r ∈ dataset.map (fun s => (m.forward s).flatten),
        r.length = m.seq_len * m.n_features := by
      intro r hr
      obtain ⟨s, -, rfl⟩ := List.mem_map.mp hr
      exact lae_forward_flatten_length m hm s
    rw [List.length_map, flatten_length_const _ _ hrows, List.length_map]
  · intro r hr
    obtain ⟨a, -, rfl⟩ := List.mem_map.mp hr
    rfl

theorem predictCore_losses (m : LAE) (dataset : List Mat) :
    (predictCore m dataset).2.length = dataset.length ∧
    (∀ r ∈ (predictCore m dataset).2, r.length = 1) ∧
    (predictCore m dataset).2.flatten
      = dataset.map (fun s => l1Loss (m.forward s) s) := by
  refine ⟨by simp [predictCore], ?_, ?_⟩
  · intro r hr
    obtain ⟨a, -, rfl⟩ := List.mem_map.mp hr
    rfl
  · exact flatten_singletons _

/-! Claim theorems and their witnesses. -/

/-- C6: for every input sequence of shape (seq_len, n_features), the
reconstruction `LAE.forward` (decode of encode) is a sequence of the
identical shape: as many timesteps as the input and `n_features` entries
per timestep. -/
theorem C6_reconstruction_shape (m : LAE) (hm : m.wf) (x : Mat)
    (hlen : x.length = m.seq_len)
    (hrows : ∀ r ∈ x, r.length = m.n_features) :
    (m.forward x).length = x.length ∧
    ∀ r ∈ m.forward x, r.length = m.n_features := by
  refine ⟨?_, lae_forward_rows m hm x⟩
  rw [lae_forward_length m hm x, hlen]

/-- Witness for C6 at a concrete model and input. -/
theorem C6_witness :
    tinyLAE.wf ∧ tinyX.length = tinyLAE.seq_len ∧
    ((tinyLAE.forward tinyX).length = tinyX.length ∧
      ∀ r ∈ tinyLAE.forward tinyX, r.length = tinyLAE.n_features) :=
  ⟨by decide, by decide,
    C6_reconstruction_shape tinyLAE (by decide) tinyX (by decide) (by decide)⟩

/-- Counterexample to C3 as stated: on a dataset of one sequence of shape
(2, 1), `predict` returns `losses` with a single row, not
`1 × (seq_len × n_features) = 2` rows as the claim asserts for both arrays. -/
theorem C3_counterexample :
    (Trainer.predict tinyTrainer tinyFS2 tinyLAE2 tinyCkptPath
        tinyDS2).map (fun pr => pr.2.length) = Except.ok 1 ∧
    tinyDS2.length * (tinyLAE2.seq_len * tinyLAE2.n_features) = 2 ∧
    (1 : Nat) ≠ 2 :=
  ⟨rfl, rfl, by decide⟩

/-- C3 amended: `predict` returns predictions of shape (N, 1) with
N = number of sequences × (seq_len × n_features), and losses of shape
(M, 1) with M = number of sequences (one scalar loss per sequence). -/
theorem C3_predict_shapes (t : Trainer) (fs : FS) (m : LAE) (mp : FPath)
    (dataset : List Mat) (m2 : LAE) (hck : fsRead fs mp = some (.ckpt m2))
    (harch : m.archMatch m2) (hwf : m2.wf) :
    ∃ pr, Trainer.predict t fs m mp dataset = .ok pr ∧
      pr.1.length = dataset.length * (m2.seq_len * m2.n_features) ∧
      (∀ r ∈ pr.1, r.length = 1) ∧
      pr.2.length = dataset.length ∧
      (∀ r ∈ pr.2, r.length = 1) := by
  refine ⟨predictCore m2 dataset, predict_ok t fs m mp dataset m2 hck harch,
    (predictCore_preds m2 hwf dataset).1, (predictCore_preds m2 hwf dataset).2,
    (predictCore_losses m2 dataset).1, (predictCore_losses m2 dataset).2.1⟩

/-- Witness for the amended C3 at a concrete checkpointed model and
dataset. -/
theorem C3_witness :
    fsRead tinyFS2 tinyCkptPath = some (.ckpt tinyLAE2) ∧
    (∃ pr, Trainer.predict tinyTrainer tinyFS2 tinyLAE2 tinyCkptPath tinyDS2
        = .ok pr ∧
      pr.1.length = tinyDS2.length * (tinyLAE2.seq_len * tinyLAE2.n_features) ∧
      (∀ r ∈ pr.1, r.length = 1) ∧
      pr.2.length = tinyDS2.length ∧
      (∀ r ∈ pr.2, r.length = 1)) :=
  ⟨rfl, C3_predict_shapes tinyTrainer tinyFS2 tinyLAE2 tinyCkptPath tinyDS2
    tinyLAE2 rfl (by decide) (by decide)⟩

/-- Evaluation of the scoring step under a loadable checkpoint and a present
losses archive: its threshold, anomaly flags, and `correct` count. -/
theorem plot_prediction_ok (sqrtFn : ℚ → ℚ) (t : Trainer) (fs : FS)
    (dataset : List Mat) (m : LAE) (mp : FPath) (m2 : LAE) (tr vl : List ℚ)
    (hck : fsRead fs mp = some (.ckpt m2)) (harch : m.archMatch m2)
    (hnpz : fsRead fs lossesArchivePath = some (.npz tr vl)) :
    Trainer.plot_prediction sqrtFn t fs dataset m mp
      = .ok ⟨listMean tr + sqrtFn (listVar tr),
          dataset.map (fun s => decide
            (listMean tr + sqrtFn (listVar tr) ≤ l1Loss (m2.forward s) s)),
          ((dataset.map (fun s => l1Loss (m2.forward s) s)).filter
            (fun l => decide (l ≤ listMean tr + sqrtFn (listVar tr)))).length⟩ := by
  unfold Trainer.plot_prediction
  rw [predict_ok t fs m mp dataset m2 hck harch]
  show (match fsRead fs lossesArchivePath with
    | some (.npz tr _) => _
    | _ => _) = _
  rw [hnpz]
  have hfl := (predictCore_losses m2 dataset).2.2
  simp only [hfl, List.map_map]
  rfl

/-- C1: the threshold of the scoring step is
`mean(train_loss) + std(train_loss)` over the persisted `train_loss` array
of the losses archive, and it does not depend on the dataset being
scored. -/
theorem C1_threshold_from_training_archive (sqrtFn : ℚ → ℚ) (t : Trainer)
    (fs : FS) (dataset : List Mat) (m : LAE) (mp : FPath) (m2 : LAE)
    (tr vl : List ℚ) (hck : fsRead fs mp = some (.ckpt m2))
    (harch : m.archMatch m2)
    (hnpz : fsRead fs lossesArchivePath = some (.npz tr vl)) :
    (∃ r, Trainer.plot_prediction sqrtFn t fs dataset m mp = .ok r ∧
      r.threshold = listMean tr + sqrtFn (listVar tr)) ∧
    ∀ ds2 r1 r2, Trainer.plot_prediction sqrtFn t fs dataset m mp = .ok r1 →
      Trainer.plot_prediction sqrtFn t fs ds2 m mp = .ok r2 →
      r1.threshold = r2.threshold := by
  have h1 := plot_prediction_ok sqrtFn t fs dataset m mp m2 tr vl hck harch hnpz
  refine ⟨⟨_, h1, rfl⟩, ?_⟩
  intro ds2 r1 r2 hr1 hr2
  have h2 := plot_prediction_ok sqrtFn t fs ds2 m mp m2 tr vl hck harch hnpz
  rw [h1] at hr1
  rw [h2] at hr2
  cases hr1
  cases hr2
  rfl

/-- Witness for C1 at a concrete filesystem, model and dataset. -/
theorem C1_witness :
    fsRead tinyFS tinyCkptPath = some (.ckpt tinyLAE) ∧
    fsRead tinyFS lossesArchivePath = some (.npz [1, 2] [3]) ∧
    ((∃ r, Trainer.plot_prediction (fun x => x) tinyTrainer tinyFS tinyDS
        tinyLAE tinyCkptPath = .ok r ∧
      r.threshold = listMean [1, 2] + listVar [1, 2]) ∧
    ∀ ds2 r1 r2, Trainer.plot_prediction (fun x => x) tinyTrainer tinyFS
        tinyDS tinyLAE tinyCkptPath = .ok r1 →
      Trainer.plot_prediction (fun x => x) tinyTrainer tinyFS ds2 tinyLAE
        tinyCkptPath = .ok r2 → r1.threshold = r2.threshold) :=
  ⟨rfl, rfl, C1_threshold_from_training_archive (fun x => x) tinyTrainer
    tinyFS tinyDS tinyLAE tinyCkptPath tinyLAE [1, 2] [3] rfl (by decide) rfl⟩

/-- C2: the scoring step labels each scored sample anomalous exactly when
its scaled reconstruction loss is greater than or equal to the threshold;
in particular a loss exactly equal to the threshold is labelled
anomalous. -/
theorem C2_anomaly_label_inclusive (sqrtFn : ℚ → ℚ) (t : Trainer) (fs : FS)
    (dataset : List Mat) (m : LAE) (mp : FPath) (m2 : LAE) (tr vl : List ℚ)
    (hck : fsRead fs mp = some (.ckpt m2)) (harch : m.archMatch m2)
    (hnpz : fsRead fs lossesArchivePath = some (.npz tr vl)) :
    ∃ r, Trainer.plot_prediction sqrtFn t fs dataset m mp = .ok r ∧
      r.anomaly = dataset.map
        (fun s => decide (r.threshold ≤ l1Loss (m2.forward s) s)) ∧
      (∀ s ∈ dataset, (decide (r.threshold ≤ l1Loss (m2.forward s) s) = true
        ↔ r.threshold ≤ l1Loss (m2.forward s) s)) ∧
      (∀ s ∈ dataset, l1Loss (m2.forward s) s = r.threshold →
        decide (r.threshold ≤ l1Loss (m2.forward s) s) = true) := by
  refine ⟨_, plot_prediction_ok sqrtFn t fs dataset m mp m2 tr vl hck harch
    hnpz, rfl, fun s _ => decide_eq_true_iff, ?_⟩
  intro s _ hs
  rw [decide_eq_true_iff]
  rw [hs]

/-- Witness for C2 at a concrete filesystem, model and dataset. -/
theorem C2_witness :
    fsRead tinyFS lossesArchivePath = some (.npz [1, 2] [3]) ∧
    (∃ r, Trainer.plot_prediction (fun x => x) tinyTrainer tinyFS tinyDS
        tinyLAE tinyCkptPath = .ok r ∧
      r.anomaly = tinyDS.map
        (fun s => decide (r.threshold ≤ l1Loss (tinyLAE.forward s) s)) ∧
      (∀ s ∈ tinyDS, (decide (r.threshold ≤ l1Loss (tinyLAE.forward s) s)
          = true ↔ r.threshold ≤ l1Loss (tinyLAE.forward s) s)) ∧
      (∀ s ∈ tinyDS, l1Loss (tinyLAE.forward s) s = r.threshold →
        decide (r.threshold ≤ l1Loss (tinyLAE.forward s) s) = true)) :=
  ⟨rfl, C2_anomaly_label_inclusive (fun x => x) tinyTrainer tinyFS tinyDS
    tinyLAE tinyCkptPath tinyLAE [1, 2] [3] rfl (by decide) rfl⟩

/-- C4: a `fit` that aborts with an unhandled failure inside the epoch loop
returns the filesystem untouched: neither the checkpoint nor the losses
archive is written. -/
theorem C4_failed_fit_writes_nothing (ts : TrainStep) (vs : ValStep)
    (t : Trainer) (fs : FS) (m : LAE) (train_dataset val_dataset : List Mat)
    (n : Nat) (lr : ℚ) (e : String)
    (h : (Trainer.fit ts vs t fs m train_dataset val_dataset n lr).2
      = .error e) :
    (Trainer.fit ts vs t fs m train_dataset val_dataset n lr).1 = fs ∧
    ∀ p, fsRead (Trainer.fit ts vs t fs m train_dataset val_dataset n lr).1 p
      = fsRead fs p := by
  unfold Trainer.fit at h ⊢
  cases hfe : fitEpochs ts vs lr n m train_dataset val_dataset
      t.train_hist t.val_hist with
  | error e2 => exact ⟨rfl, fun p => rfl⟩
  | ok r => rw [hfe] at h; simp at h

/-- Witness for C4: a training step raising on its first sequence. -/
theorem C4_witness :
    (Trainer.fit failTS tinyVS tinyTrainer tinyFS tinyLAE tinyDS tinyDS 1
        1).2 = .error ("boom") ∧
    ((Trainer.fit failTS tinyVS tinyTrainer tinyFS tinyLAE tinyDS tinyDS 1
        1).1 = tinyFS ∧
      ∀ p, fsRead (Trainer.fit failTS tinyVS tinyTrainer tinyFS tinyLAE
        tinyDS tinyDS 1 1).1 p = fsRead tinyFS p) :=
  ⟨rfl, C4_failed_fit_writes_nothing failTS tinyVS tinyTrainer tinyFS tinyLAE
    tinyDS tinyDS 1 1 ("boom") rfl⟩

theorem fitEpochs_of_epochLog (ts : TrainStep) (vs : ValStep) (lr : ℚ)
    (train_dataset val_dataset : List Mat) :
    ∀ (n : Nat) (m : LAE) (htr hvl : List ℚ) (mf : LAE)
      (L : List (List ℚ × List ℚ)),
      epochLog ts vs lr n m train_dataset val_dataset = .ok (mf, L) →
      fitEpochs ts vs lr n m train_dataset val_dataset htr hvl
        = .ok (mf, htr ++ L.map (fun p => listMean p.1),
            hvl ++ L.map (fun p => listMean p.2)) := by
  intro n
  induction n with
  | zero =>
    intro m htr hvl mf L h
    rw [epochLog] at h
    cases h
    simp [fitEpochs]
  | succ k ih =>
    intro m htr hvl mf L h
    rw [epochLog] at h
    rw [fitEpochs]
    cases het : epochTrain ts lr m train_dataset with
    | error e =>
      simp only [het] at h
      exact Except.noConfusion h
    | ok r =>
      simp only [het] at h ⊢
      cases hev : epochVal vs r.1 val_dataset with
      | error e =>
        simp only [hev] at h
        exact Except.noConfusion h
      | ok vls =>
        simp only [hev] at h ⊢
        cases hlg : epochLog ts vs lr k r.1 train_dataset val_dataset with
        | error e =>
          simp only [hlg] at h
          exact Except.noConfusion h
        | ok rest =>
          simp only [hlg] at h
          cases h
          rw [ih r.1 (htr ++ [listMean r.2]) (hvl ++ [listMean vls])
            rest.1 rest.2 hlg]
          simp

theorem epochLog_length (ts : TrainStep) (vs : ValStep) (lr : ℚ)
    (train_dataset val_dataset : List Mat) :
    ∀ (n : Nat) (m mf : LAE) (L : List (List ℚ × List ℚ)),
      epochLog ts vs lr n m train_dataset val_dataset = .ok (mf, L) →
      L.length = n := by
  intro n
  induction n with
  | zero =>
    intro m mf L h
    rw [epochLog] at h
    cases h
    rfl
  | succ k ih =>
    intro m mf L h
    rw [epochLog] at h
    cases het : epochTrain ts lr m train_dataset with
    | error e =>
      simp only [het] at h
      exact Except.noConfusion h
    | ok r =>
      simp only [het] at h
      cases hev : epochVal vs r.1 val_dataset with
      | error e =>
        simp only [hev] at h
        exact Except.noConfusion h
      | ok vls =>
        simp only [hev] at h
        cases hlg : epochLog ts vs lr k r.1 train_dataset val_dataset with
        | error e =>
          simp only [hlg] at h
          exact Except.noConfusion h
        | ok rest =>
          simp only [hlg] at h
          cases h
          simp [ih r.1 rest.1 rest.2 hlg]

theorem fsRead_write (fs : FS) (p : FPath) (d : FileData) (q : FPath) :
    fsRead (fsWrite fs p d) q = if q = p then some d else fsRead fs q := rfl

theorem fit_ok (ts : TrainStep) (vs : ValStep) (lr : ℚ) (t : Trainer)
    (fs : FS) (m : LAE) (train_dataset val_dataset : List Mat) (n : Nat)
    (mf : LAE) (htr hvl : List ℚ)
    (hfe : fitEpochs ts vs lr n m train_dataset val_dataset t.train_hist
      t.val_hist = .ok (mf, htr, hvl)) :
    Trainer.fit ts vs t fs m train_dataset val_dataset n lr
      = (fsWrite (fsWrite fs ⟨t.log_dir, t.model_name ++ ".pth"⟩ (.ckpt mf))
          ⟨t.log_dir, "losses.npz"⟩ (.npz htr hvl),
        .ok (⟨t.log_dir, t.model_name, htr, hvl⟩, mf)) := by
  unfold Trainer.fit
  rw [hfe]

theorem fit_error (ts : TrainStep) (vs : ValStep) (lr : ℚ) (t : Trainer)
    (fs : FS) (m : LAE) (train_dataset val_dataset : List Mat) (n : Nat)
    (e : String)
    (hfe : fitEpochs ts vs lr n m train_dataset val_dataset t.train_hist
      t.val_hist = .error e) :
    Trainer.fit ts vs t fs m train_dataset val_dataset n lr
      = (fs, .error e) := by
  unfold Trainer.fit
  rw [hfe]

/-- C5: on a freshly constructed trainer, a successful `fit` appends, per
epoch and in epoch order, exactly one training entry and one validation
entry to the history, each entry being `np.mean` of that epoch's
per-sequence losses; the final histories therefore have exactly
`num_epochs` entries, and they are the ones persisted in the losses
archive. -/
theorem C5_epoch_means (ts : TrainStep) (vs : ValStep) (lr : ℚ) (t : Trainer)
    (fs : FS) (m : LAE) (train_dataset val_dataset : List Mat) (n : Nat)
    (mf : LAE) (L : List (List ℚ × List ℚ))
    (h0 : t.train_hist = []) (h1 : t.val_hist = [])
    (hlog : epochLog ts vs lr n m train_dataset val_dataset = .ok (mf, L)) :
    Trainer.fit ts vs t fs m train_dataset val_dataset n lr
      = (fsWrite (fsWrite fs ⟨t.log_dir, t.model_name ++ ".pth"⟩ (.ckpt mf))
          ⟨t.log_dir, "losses.npz"⟩
          (.npz (L.map (fun p => listMean p.1)) (L.map (fun p => listMean p.2))),
        .ok (⟨t.log_dir, t.model_name, L.map (fun p => listMean p.1),
          L.map (fun p => listMean p.2)⟩, mf)) ∧
    L.length = n ∧
    (L.map (fun p => listMean p.1)).length = n ∧
    (L.map (fun p => listMean p.2)).length = n := by
  have hlen := epochLog_length ts vs lr train_dataset val_dataset n m mf L hlog
  have hfe := fitEpochs_of_epochLog ts vs lr train_dataset val_dataset n m
    t.train_hist t.val_hist mf L hlog
  refine ⟨?_, hlen, by simp [hlen], by simp [hlen]⟩
  rw [fit_ok ts vs lr t fs m train_dataset val_dataset n mf _ _ hfe, h0, h1]
  simp

/-- Witness for C5: two epochs on a concrete trainer and model. -/
theorem C5_witness :
    tinyTrainer.train_hist = [] ∧
    epochLog tinyTS tinyVS 1 2 tinyLAE tinyDS tinyDS
      = .ok (tinyLAE, [([0], [0]), ([0], [0])]) ∧
    (Trainer.fit tinyTS tinyVS tinyTrainer tinyFS tinyLAE tinyDS tinyDS 2 1
      = (fsWrite (fsWrite tinyFS
            ⟨tinyTrainer.log_dir, tinyTrainer.model_name ++ ".pth"⟩
            (.ckpt tinyLAE))
          ⟨tinyTrainer.log_dir, "losses.npz"⟩
          (.npz ([([0], [0]), ([0], [0])].map (fun p => listMean p.1))
            ([([0], [0]), ([0], [0])].map (fun p => listMean p.2))),
        .ok (⟨tinyTrainer.log_dir, tinyTrainer.model_name,
          [([0], [0]), ([0], [0])].map (fun p => listMean p.1),
          [([0], [0]), ([0], [0])].map (fun p => listMean p.2)⟩, tinyLAE)) ∧
    ([([0], [0]), ([0], [0])] : List (List ℚ × List ℚ)).length = 2 ∧
    (([([0], [0]), ([0], [0])] : List (List ℚ × List ℚ)).map
      (fun p => listMean p.1)).length = 2 ∧
    (([([0], [0]), ([0], [0])] : List (List ℚ × List ℚ)).map
      (fun p => listMean p.2)).length = 2) :=
  ⟨rfl, rfl, C5_epoch_means tinyTS tinyVS 1 tinyTrainer tinyFS tinyLAE tinyDS
    tinyDS 2 tinyLAE [([0], [0]), ([0], [0])] rfl rfl rfl⟩

/-- C7: the loss histories produced by `fit` are a function of the step
semantics (which carries the seed-determined numerics), the initial model
parameters, the datasets in their given order, the epoch count, the
learning rate and the initial history alone: two runs agreeing on those
produce identical histories whatever their trainers' other state (log_dir,
model_name) and whatever the filesystem. -/
theorem C7_fit_deterministic (ts : TrainStep) (vs : ValStep) (lr : ℚ)
    (n : Nat) (t1 t2 : Trainer) (fs1 fs2 : FS) (m : LAE)
    (train_dataset val_dataset : List Mat)
    (h1 : t1.train_hist = t2.train_hist) (h2 : t1.val_hist = t2.val_hist) :
    (Trainer.fit ts vs t1 fs1 m train_dataset val_dataset n lr).2.map
      (fun r => (r.1.train_hist, r.1.val_hist))
    = (Trainer.fit ts vs t2 fs2 m train_dataset val_dataset n lr).2.map
      (fun r => (r.1.train_hist, r.1.val_hist)) := by
  unfold Trainer.fit
  rw [h1, h2]
  cases fitEpochs ts vs lr n m train_dataset val_dataset t2.train_hist
    t2.val_hist with
  | error e => rfl
  | ok r => rfl

/-- Witness for C7: two trainers differing in log_dir and model_name and
two different filesystems. -/
theorem C7_witness :
    tinyTrainer.train_hist = logTrainer.train_hist ∧
    (Trainer.fit tinyTS tinyVS tinyTrainer tinyFS tinyLAE tinyDS tinyDS 1
        1).2.map (fun r => (r.1.train_hist, r.1.val_hist))
    = (Trainer.fit tinyTS tinyVS logTrainer [] tinyLAE tinyDS tinyDS 1
        1).2.map (fun r => (r.1.train_hist, r.1.val_hist)) :=
  ⟨rfl, C7_fit_deterministic tinyTS tinyVS 1 1 tinyTrainer logTrainer tinyFS
    [] tinyLAE tinyDS tinyDS rfl rfl⟩

/-- C9: the scoring step reads the losses archive from the hard-coded path
"training_logs/losses.npz" whatever the trainer says, so a successful `fit`
of a trainer whose log_dir is not "training_logs" leaves the archive seen
at that path unchanged: the threshold is not derived from the archive that
this fit call itself persisted. Moreover the scoring step does not depend
on the trainer value at all. -/
theorem C9_threshold_ignores_log_dir (sqrtFn : ℚ → ℚ) (ts : TrainStep)
    (vs : ValStep) (lr : ℚ) (n : Nat) (t : Trainer) (fs : FS) (m : LAE)
    (train_dataset val_dataset : List Mat) (fs2 : FS) (t2 : Trainer)
    (m2 : LAE) (hne : t.log_dir ≠ "training_logs")
    (hfit : Trainer.fit ts vs t fs m train_dataset val_dataset n lr
      = (fs2, .ok (t2, m2))) :
    fsRead fs2 lossesArchivePath = fsRead fs lossesArchivePath ∧
    ∀ (t3 : Trainer) (dataset : List Mat) (mm : LAE) (mp : FPath),
      Trainer.plot_prediction sqrtFn t3 fs2 dataset mm mp
      = Trainer.plot_prediction sqrtFn t fs2 dataset mm mp := by
  refine ⟨?_, fun t3 dataset mm mp => rfl⟩
  cases hfe : fitEpochs ts vs lr n m train_dataset val_dataset t.train_hist
    t.val_hist with
  | error e =>
    rw [fit_error ts vs lr t fs m train_dataset val_dataset n e hfe,
      Prod.mk.injEq] at hfit
    exact absurd hfit.2 (by simp)
  | ok r =>
    obtain ⟨mf, htr, hvl⟩ := r
    rw [fit_ok ts vs lr t fs m train_dataset val_dataset n mf htr hvl hfe,
      Prod.mk.injEq] at hfit
    obtain ⟨hfs, -⟩ := hfit
    have hp2 : lossesArchivePath ≠ (⟨t.log_dir, "losses.npz"⟩ : FPath) := by
      intro hc
      exact hne (congrArg FPath.dir hc).symm
    have hp1 : lossesArchivePath
        ≠ (⟨t.log_dir, t.model_name ++ ".pth"⟩ : FPath) := by
      intro hc
      exact hne (congrArg FPath.dir hc).symm
    rw [← hfs, fsRead_write, if_neg hp2, fsRead_write, if_neg hp1]

/-- Witness for C9: a trainer logging to "logs" fits successfully; the
archive at the fixed path is unchanged. -/
theorem C9_witness :
    logTrainer.log_dir ≠ "training_logs" ∧
    (fsRead (fsWrite (fsWrite tinyFS
        ⟨logTrainer.log_dir, logTrainer.model_name ++ ".pth"⟩
        (.ckpt tinyLAE))
        ⟨logTrainer.log_dir, "losses.npz"⟩
        (.npz [listMean [0]] [listMean [0]])) lossesArchivePath
      = fsRead tinyFS lossesArchivePath ∧
    ∀ (t3 : Trainer) (dataset : List Mat) (mm : LAE) (mp : FPath),
      Trainer.plot_prediction (fun x => x) t3 (fsWrite (fsWrite tinyFS
          ⟨logTrainer.log_dir, logTrainer.model_name ++ ".pth"⟩
          (.ckpt tinyLAE))
          ⟨logTrainer.log_dir, "losses.npz"⟩
          (.npz [listMean [0]] [listMean [0]])) dataset mm mp
      = Trainer.plot_prediction (fun x => x) logTrainer (fsWrite (fsWrite
          tinyFS ⟨logTrainer.log_dir, logTrainer.model_name ++ ".pth"⟩
          (.ckpt tinyLAE))
          ⟨logTrainer.log_dir, "losses.npz"⟩
          (.npz [listMean [0]] [listMean [0]])) dataset mm mp) :=
  ⟨by decide, C9_threshold_ignores_log_dir (fun x => x) tinyTS tinyVS 1 1
    logTrainer tinyFS tinyLAE tinyDS tinyDS _ _ _ (by decide) rfl⟩

/-- C10: the history survives across `fit` calls on the same trainer: a
second successful fit appends its per-epoch means after those of the first,
and the losses archive persisted by the second call holds the concatenated
histories of both calls (after any history the trainer already carried). -/
theorem C10_history_accumulates (ts : TrainStep) (vs : ValStep) (lr : ℚ)
    (n1 n2 : Nat) (t : Trainer) (fs : FS) (m : LAE)
    (train_dataset val_dataset : List Mat) (mf1 mf2 : LAE)
    (L1 L2 : List (List ℚ × List ℚ))
    (h1 : epochLog ts vs lr n1 m train_dataset val_dataset = .ok (mf1, L1))
    (h2 : epochLog ts vs lr n2 mf1 train_dataset val_dataset
      = .ok (mf2, L2)) :
    ∃ fs1 fs2 t1 t2,
      Trainer.fit ts vs t fs m train_dataset val_dataset n1 lr
        = (fs1, .ok (t1, mf1)) ∧
      Trainer.fit ts vs t1 fs1 mf1 train_dataset val_dataset n2 lr
        = (fs2, .ok (t2, mf2)) ∧
      t2.train_hist = t.train_hist ++ L1.map (fun p => listMean p.1)
        ++ L2.map (fun p => listMean p.1) ∧
      t2.val_hist = t.val_hist ++ L1.map (fun p => listMean p.2)
        ++ L2.map (fun p => listMean p.2) ∧
      fsRead fs2 ⟨t.log_dir, "losses.npz"⟩
        = some (.npz t2.train_hist t2.val_hist) := by
  have hfe1 := fitEpochs_of_epochLog ts vs lr train_dataset val_dataset n1 m
    t.train_hist t.val_hist mf1 L1 h1
  have hfit1 := fit_ok ts vs lr t fs m train_dataset val_dataset n1 mf1 _ _
    hfe1
  have hfe2 := fitEpochs_of_epochLog ts vs lr train_dataset val_dataset n2
    mf1 (t.train_hist ++ L1.map (fun p => listMean p.1))
    (t.val_hist ++ L1.map (fun p => listMean p.2)) mf2 L2 h2
  have hfit2 := fit_ok ts vs lr
    ⟨t.log_dir, t.model_name, t.train_hist ++ L1.map (fun p => listMean p.1),
      t.val_hist ++ L1.map (fun p => listMean p.2)⟩
    (fsWrite (fsWrite fs ⟨t.log_dir, t.model_name ++ ".pth"⟩ (.ckpt mf1))
      ⟨t.log_dir, "losses.npz"⟩
      (.npz (t.train_hist ++ L1.map (fun p => listMean p.1))
        (t.val_hist ++ L1.map (fun p => listMean p.2))))
    mf1 train_dataset val_dataset n2 mf2 _ _ hfe2
  refine ⟨_, _, _, _, hfit1, hfit2, rfl, rfl, ?_⟩
  rw [fsRead_write, if_pos rfl]

/-- Witness for C10: two consecutive one-epoch fits on the same trainer. -/
theorem C10_witness :
    epochLog tinyTS tinyVS 1 1 tinyLAE tinyDS tinyDS
      = .ok (tinyLAE, [([0], [0])]) ∧
    (∃ fs1 fs2 t1 t2,
      Trainer.fit tinyTS tinyVS tinyTrainer tinyFS tinyLAE tinyDS tinyDS 1 1
        = (fs1, .ok (t1, tinyLAE)) ∧
      Trainer.fit tinyTS tinyVS t1 fs1 tinyLAE tinyDS tinyDS 1 1
        = (fs2, .ok (t2, tinyLAE)) ∧
      t2.train_hist = tinyTrainer.train_hist
        ++ [([0], [0])].map (fun p => listMean p.1)
        ++ [([0], [0])].map (fun p => listMean p.1) ∧
      t2.val_hist = tinyTrainer.val_hist
        ++ [([0], [0])].map (fun p => listMean p.2)
        ++ [([0], [0])].map (fun p => listMean p.2) ∧
      fsRead fs2 ⟨tinyTrainer.log_dir, "losses.npz"⟩
        = some (.npz t2.train_hist t2.val_hist)) :=
  ⟨rfl, C10_history_accumulates tinyTS tinyVS 1 1 1 tinyTrainer tinyFS
    tinyLAE tinyDS tinyDS tinyLAE tinyLAE [([0], [0])] [([0], [0])] rfl rfl⟩

/-- C8: combine_data processes the data files in nondecreasing order of the
numeric suffix key (the sorted, keyed list is a permutation of the filtered
txt files, sorted by `keyLe`), and its output rows are, in that file order,
the per-line (SPD, ANG, TRQ) triples obtained by `parseLine`, which reads
the number after the last ':' of each of the three comma-separated
fields. -/
theorem C8_combine_data_sorted_rows (pF : List Char → Option ℚ)
    (source_dir : String) (files : List RawFile)
    (keyed : List (Int × RawFile)) (rows : List (ℚ × ℚ × ℚ))
    (hk : (files.filter (fun f => ("txt").data.isSuffixOf f.name.data)).mapM
      (fun f => (suffixKey (pathJoin source_dir f.name)).map (fun k => (k, f)))
      = some keyed)
    (hp : (((List.insertionSort keyLe keyed).map
        (fun kf => kf.2.lines)).flatten).mapM (parseLine pF) = some rows) :
    combine_data pF source_dir files = some rows ∧
    (List.insertionSort keyLe keyed).Perm keyed ∧
    List.Sorted keyLe (List.insertionSort keyLe keyed) := by
  refine ⟨?_, List.perm_insertionSort keyLe keyed,
    List.sorted_insertionSort keyLe keyed⟩
  unfold combine_data
  simp only [hk]
  exact hp

/-- Witness for C8: three raw files, one of which is not a txt file, with
out-of-order numeric suffixes, and a parser sending every numeral to 0. -/
theorem C8_witness :
    (([⟨"x_2.txt", ["s:1,a:2,t:3"]⟩, ⟨"y_10.txt", ["s:4,a:5,t:6"]⟩,
        ⟨"note.csv", ["ignored"]⟩] : List RawFile).filter
      (fun f => ("txt").data.isSuffixOf f.name.data)).mapM
      (fun f => (suffixKey (pathJoin ("data") f.name)).map (fun k => (k, f)))
      = some [(2, ⟨"x_2.txt", ["s:1,a:2,t:3"]⟩),
        (10, ⟨"y_10.txt", ["s:4,a:5,t:6"]⟩)] ∧
    (combine_data (fun _ => some 0) ("data")
        [⟨"x_2.txt", ["s:1,a:2,t:3"]⟩, ⟨"y_10.txt", ["s:4,a:5,t:6"]⟩,
          ⟨"note.csv", ["ignored"]⟩]
      = some [(0, 0, 0), (0, 0, 0)] ∧
    (List.insertionSort keyLe [(2, ⟨"x_2.txt", ["s:1,a:2,t:3"]⟩),
        (10, ⟨"y_10.txt", ["s:4,a:5,t:6"]⟩)]).Perm
      [(2, ⟨"x_2.txt", ["s:1,a:2,t:3"]⟩), (10, ⟨"y_10.txt", ["s:4,a:5,t:6"]⟩)] ∧
    List.Sorted keyLe (List.insertionSort keyLe
      [(2, ⟨"x_2.txt", ["s:1,a:2,t:3"]⟩),
        (10, ⟨"y_10.txt", ["s:4,a:5,t:6"]⟩)])) :=
  ⟨rfl, C8_combine_data_sorted_rows (fun _ => some 0) ("data")
    [⟨"x_2.txt", ["s:1,a:2,t:3"]⟩, ⟨"y_10.txt", ["s:4,a:5,t:6"]⟩,
      ⟨"note.csv", ["ignored"]⟩]
    [(2, ⟨"x_2.txt", ["s:1,a:2,t:3"]⟩), (10, ⟨"y_10.txt", ["s:4,a:5,t:6"]⟩)]
    [(0, 0, 0), (0, 0, 0)] rfl rfl⟩

end EPS
